import Mathlib

/-!
# Verification of the tesis-crawler crawl orchestration engine

Shallow embedding of the crawl core of the `tesis-crawler` repository:
the domain normalizer (`app/core/domain_utils.py`), the content filters
(`app/core/content_filters.py`), the content validator and result-processing
loop of the crawl worker (`app/tasks/worker.py`), the progress estimator of
the scrape API (`app/api/scrape.py`), and the job registry
(`app/core/job_manager.py`).

Python strings are modelled as lists of Unicode code points (`PyStr`), so
that Python's `.lower()`, `.strip()`, slicing and substring tests become
executable list functions.  Wall-clock inputs (elapsed seconds, the current
year) and external effects (filesystem writes, the ingestion sink) are passed
explicitly as parameters or oracle fields, following the source's control
flow exactly.
-/

namespace Tesis

/-- A Python string, as its list of Unicode code points. -/
abbrev PyStr := List Nat

/-- Embed a Lean string literal as a `PyStr` (list of code points). -/
def lit (s : String) : PyStr := s.toList.map Char.toNat

/-- Python `str.isspace` characters relevant to `.strip()`/`.split()`
(ASCII whitespace; the repository's data never carries Unicode spaces). -/
def pyIsSpace (c : Nat) : Bool :=
  c = 32 || c = 9 || c = 10 || c = 13 || c = 11 || c = 12

/-- Python `str.lstrip()`. -/
def pyLstrip (s : PyStr) : PyStr := s.dropWhile pyIsSpace

/-- Python `str.rstrip()`. -/
def pyRstrip (s : PyStr) : PyStr := (s.reverse.dropWhile pyIsSpace).reverse

/-- Python `str.strip()`. -/
def pyStrip (s : PyStr) : PyStr := pyRstrip (pyLstrip s)

/-- Python `str.lower()` on one code point (ASCII range; the case-mapped
characters that the repository's token tables compare are ASCII). -/
def pyLowerChar (c : Nat) : Nat :=
  if 65 ≤ c && c ≤ 90 then c + 32 else c

/-- Python `str.lower()`. -/
def pyLower (s : PyStr) : PyStr := s.map pyLowerChar

/-- Python `needle in hay` substring test. -/
def containsSub (needle : PyStr) : PyStr → Bool
  | [] => needle.isEmpty
  | c :: rest => needle.isPrefixOf (c :: rest) || containsSub needle rest

/-- Python `s.split(sep, 1)[0]`: the prefix of `s` before the first `sep`. -/
def takeUntil (sep : Nat) (s : PyStr) : PyStr := s.takeWhile (fun c => c ≠ sep)

/-- Python `s.startswith(p)`. -/
def pyStartsWith (p s : PyStr) : Bool := p.isPrefixOf s

/-- The part of `s` after the last occurrence of `sep`
(Python `s.rpartition(sep)[2]`; `s` itself when `sep` is absent). -/
def afterLast (sep : Nat) (s : PyStr) : PyStr :=
  (s.reverse.takeWhile (fun c => c ≠ sep)).reverse

/-! ## `urllib.parse.urlparse`, restricted to what the repository reads

`urlparse` is standard-library code outside the repository; the model below
follows its documented splitting rules: the fragment is cut at the first
`#`, a scheme is split off at the first `:` when the candidate consists of
letters, digits, `+`, `-`, `.`; a netloc follows a leading `//` and runs to
the first `/`, `?` or `#`; the path runs to the first `?`.  `hostname` drops
the userinfo at the last `@`, takes the bracketed form when present and
otherwise cuts the port at `:`, and lower-cases. -/

/-- Characters allowed in a URL scheme by `urllib.parse`. -/
def isSchemeChar (c : Nat) : Bool :=
  (97 ≤ c && c ≤ 122) || (65 ≤ c && c ≤ 90) || (48 ≤ c && c ≤ 57) ||
    c = 43 || c = 45 || c = 46

/-- Split `url` into `(scheme, rest)` at the first `:` when the prefix is a
valid non-empty scheme; otherwise the scheme is empty. -/
def splitScheme (url : PyStr) : PyStr × PyStr :=
  let pre := takeUntil 58 url
  if pre.length < url.length && !pre.isEmpty && pre.all isSchemeChar then
    (pyLower pre, url.drop (pre.length + 1))
  else
    ([], url)

/-- Split `(netloc, rest)` off `s` when `s` starts with `//`. -/
def splitNetloc (s : PyStr) : PyStr × PyStr :=
  if pyStartsWith (lit "//") s then
    let n := (s.drop 2).takeWhile (fun c => c ≠ 47 && c ≠ 63 && c ≠ 35)
    (n, (s.drop 2).drop n.length)
  else
    ([], s)

/-- `urlparse(url)` scheme, netloc and path components. -/
def pyUrlparse (url : PyStr) : PyStr × PyStr × PyStr :=
  let noFrag := takeUntil 35 url
  let (scheme, rest) := splitScheme noFrag
  let (netloc, rest2) := splitNetloc rest
  (scheme, netloc, takeUntil 63 rest2)

/-- `urlparse(url).path`. -/
def pyPath (url : PyStr) : PyStr := (pyUrlparse url).2.2

/-- `urlparse(url).scheme`. -/
def pyScheme (url : PyStr) : PyStr := (pyUrlparse url).1

/-- `parsed.hostname or ""` for a netloc: drop userinfo at the last `@`,
take the `[...]` interior when brackets are present, otherwise cut the port
at `:`; lower-case the result. -/
def pyHostnameOfNetloc (netloc : PyStr) : PyStr :=
  let hostport := afterLast 64 netloc
  let h :=
    if hostport.contains 91 && hostport.contains 93 then
      takeUntil 93 ((hostport.dropWhile (fun c => c ≠ 91)).drop 1)
    else
      takeUntil 58 hostport
  pyLower h

/-- `urlparse(url).hostname or ""`. -/
def pyHostname (url : PyStr) : PyStr := pyHostnameOfNetloc (pyUrlparse url).2.1

/-- Result of a Python call that may raise: the value, or the raised
exception's message. -/
inductive PyResult (α : Type) where
  | ok (val : α)
  | error (msg : PyStr)
deriving DecidableEq

/-- `urllib.parse.urlsplit` raises `ValueError("Invalid IPv6 URL")` when the
extracted netloc has a `[` without `]` or a `]` without `[`; this is the
condition of that raise. -/
def urlparseRaises (url : PyStr) : Bool :=
  ((pyUrlparse url).2.1.contains 91) != ((pyUrlparse url).2.1.contains 93)

/-- `urlparse(url)` with its error path: the bracket check of `urlsplit`
raises before any component is returned. -/
def pyUrlparseE (url : PyStr) : PyResult (PyStr × PyStr × PyStr) :=
  if urlparseRaises url then .error (lit "Invalid IPv6 URL")
  else .ok (pyUrlparse url)

/-! ## `app/core/domain_utils.py` -/

/-- `normalize_domain` (domain_utils.py lines 4-15). -/
def normalize_domain (value : PyStr) : PyStr :=
  let raw := pyLower (pyStrip value)
  if raw.isEmpty then []
  else
    let host :=
      if containsSub (lit "://") raw then
        pyLower (pyStrip (pyHostname raw))
      else
        pyLower (pyStrip (takeUntil 58 raw))
    if pyStartsWith (lit "www.") host then host.drop 4 else host

/-- `normalize_domain` with `urlparse`'s error path made explicit: when the
input contains `://` the call `urlparse(raw)` can raise
`ValueError("Invalid IPv6 URL")`, which propagates out of
`normalize_domain`; `.error` carries that message.  On non-raising inputs
this agrees with `normalize_domain` (proved below). -/
def normalize_domainE (value : PyStr) : PyResult PyStr :=
  let raw := pyLower (pyStrip value)
  if raw.isEmpty then .ok []
  else if containsSub (lit "://") raw then
    match pyUrlparseE raw with
    | .error e => .error e
    | .ok parsed =>
      let host := pyLower (pyStrip (pyHostnameOfNetloc parsed.2.1))
      .ok (if pyStartsWith (lit "www.") host then host.drop 4 else host)
  else
    let host := pyLower (pyStrip (takeUntil 58 raw))
    .ok (if pyStartsWith (lit "www.") host then host.drop 4 else host)

/-- `domain_variants` (domain_utils.py lines 18-22): a Python `set`,
modelled as a `Finset` of code-point lists. -/
def domain_variants (value : PyStr) : Finset PyStr :=
  let base := normalize_domain value
  if base.isEmpty then ∅ else {base, lit "www." ++ base}

/-! ## `app/core/content_filters.py` -/

/-- `NEWS_URL_TOKENS` (content_filters.py lines 5-8). -/
def NEWS_URL_TOKENS : List PyStr :=
  [lit "/notimed", lit "/noticia", lit "/novedad", lit "/prensa", lit "/comunicado",
   lit "/blog", lit "/news", lit "/agenda", lit "/evento", lit "/tag/",
   lit "/category/", lit "/author/"]

/-- `NEWS_TEXT_HINTS` (content_filters.py lines 10-13). -/
def NEWS_TEXT_HINTS : List PyStr :=
  [lit "área de prensa", lit "sala de prensa", lit "novedades", lit "comunicados",
   lit "felicitamos", lit "efemérides", lit "día mundial", lit "saludo institucional"]

/-- `ADMISSION_PRIORITY_HINTS` (content_filters.py lines 15-28). -/
def ADMISSION_PRIORITY_HINTS : List PyStr :=
  [lit "admisión", lit "admision", lit "ingresante", lit "ingresantes", lit "ingreso",
   lit "inscripción", lit "inscripcion", lit "requisitos de ingreso", lit "paso a paso",
   lit "siu guaraní", lit "siu guarani", lit "plan de estudios"]

/-- `CONDITIONAL_PRIORITY_HINTS` (content_filters.py lines 30-35). -/
def CONDITIONAL_PRIORITY_HINTS : List PyStr :=
  [lit "documentación", lit "documentacion", lit "resolución", lit "resolucion"]

/-- `PRIORITY_CONTEXT_HINTS` (content_filters.py lines 37-48). -/
def PRIORITY_CONTEXT_HINTS : List PyStr :=
  [lit "admisión", lit "admision", lit "ingreso", lit "ingresante", lit "inscripción",
   lit "inscripcion", lit "plan de estudios", lit "correlatividades", lit "carrera",
   lit "carreras"]

/-- `content_filters._normalize`: `(value or "").strip().lower()`. -/
def cfNormalize (value : PyStr) : PyStr := pyLower (pyStrip value)

/-- ASCII digit test. -/
def isDigit (c : Nat) : Bool := 48 ≤ c && c ≤ 57

/-- `_year_values`: the left-to-right, non-overlapping matches of the regex
`(?:19|20)\d{2}`, each read as a number. -/
def yearScan : PyStr → List Nat
  | d1 :: d2 :: d3 :: d4 :: r =>
    if ((d1 = 49 && d2 = 57) || (d1 = 50 && d2 = 48)) && isDigit d3 && isDigit d4 then
      ((d1 - 48) * 1000 + (d2 - 48) * 100 + (d3 - 48) * 10 + (d4 - 48)) :: yearScan r
    else
      yearScan (d2 :: d3 :: d4 :: r)
  | _ => []

/-- `_is_priority_academic_content` (content_filters.py lines 59-71). -/
def is_priority_academic_content (url title content : PyStr) : Bool :=
  let url_lc := cfNormalize url
  let title_lc := cfNormalize title
  let content_lc := cfNormalize (content.take 2000)
  let full_text := url_lc ++ lit " " ++ title_lc ++ lit " " ++ content_lc
  if ADMISSION_PRIORITY_HINTS.any (fun h => containsSub h full_text) then true
  else if CONDITIONAL_PRIORITY_HINTS.any (fun h => containsSub h full_text) then
    PRIORITY_CONTEXT_HINTS.any (fun ctx => containsSub ctx full_text)
  else false

/-- `is_institutional_news` (content_filters.py lines 73-86). -/
def is_institutional_news (url title content : PyStr) : Bool :=
  let url_lc := cfNormalize url
  let title_lc := cfNormalize title
  let content_lc := cfNormalize content
  if is_priority_academic_content url title content then false
  else if NEWS_URL_TOKENS.any (fun token => containsSub token url_lc) then true
  else
    (NEWS_TEXT_HINTS.any (fun hint => containsSub hint title_lc)) &&
      (NEWS_TEXT_HINTS.any (fun hint => containsSub hint (content_lc.take 1000)))

/-- `is_outdated_content` (content_filters.py lines 88-108), with the wall
clock's `datetime.now().year` passed explicitly as `currentYear`. -/
def is_outdated_content (currentYear : Nat) (url title content : PyStr)
    (max_age_years : Nat) : Bool :=
  let min_fresh_year := currentYear - max_age_years
  let content_lc := cfNormalize (content.take 2000)
  if is_priority_academic_content url title content then false
  else
    let url_years := yearScan url
    if !url_years.isEmpty && url_years.foldr max 0 < min_fresh_year then true
    else if is_institutional_news url title content then
      let content_years := yearScan content_lc
      !content_years.isEmpty && content_years.foldr max 0 < min_fresh_year
    else false

/-! ## `CrawlWorker._invalid_reason` (worker.py lines 80-102) -/

mutual
/-- Number of words of Python `s.split()` (whitespace runs separate words,
no empty words); this is the state "outside a word". -/
def wordCount : PyStr → Nat
  | [] => 0
  | c :: t => if pyIsSpace c then wordCount t else wordCountRest t + 1
/-- Word counting in the state "inside a word". -/
def wordCountRest : PyStr → Nat
  | [] => 0
  | c :: t => if pyIsSpace c then wordCount t else wordCountRest t
end

/-- `CrawlWorker._invalid_reason`, with `datetime.now().year` (reached via
`is_outdated_content`) passed explicitly as `currentYear`. -/
def invalid_reason (currentYear : Nat) (url title content : PyStr)
    (min_content_words : Nat) : Option PyStr :=
  let url_lc := pyLower url
  if content.isEmpty then some (lit "empty_content")
  else
    let normalized := pyLower (pyStrip content)
    if normalized.isEmpty then some (lit "blank_content")
    else if (pyPath url_lc).isEmpty || pyPath url_lc == lit "/" then
      some (lit "root_path")
    else if containsSub (lit "página no encontrada") normalized ||
        containsSub (lit "pagina no encontrada") normalized then
      some (lit "not_found_page")
    else if decide (wordCount normalized < max 1 min_content_words) then
      some (lit "too_short")
    else if is_institutional_news url title normalized then
      some (lit "institutional_news")
    else if is_outdated_content currentYear url title normalized 2 then
      some (lit "outdated_content")
    else none

/-- First matching entry of an ordered list of (condition, verdict) pairs;
the shape the specification describes for the Content Validator. -/
def firstMatch {α : Type} : List (Bool × α) → Option α
  | [] => none
  | (c, r) :: rest => if c then some r else firstMatch rest

/-- The Content Validator as the specification words it: the first matching
invalid reason in the fixed priority order
empty → blank → root path → not-found marker → too short → institutional
news → outdated; no match means valid. -/
def spec_invalid_reason (currentYear : Nat) (url title content : PyStr)
    (min_content_words : Nat) : Option PyStr :=
  let normalized := pyLower (pyStrip content)
  firstMatch
    [(content.isEmpty, lit "empty_content"),
     (normalized.isEmpty, lit "blank_content"),
     ((pyPath (pyLower url)).isEmpty || pyPath (pyLower url) == lit "/",
       lit "root_path"),
     (containsSub (lit "página no encontrada") normalized ||
        containsSub (lit "pagina no encontrada") normalized,
       lit "not_found_page"),
     (wordCount normalized < max 1 min_content_words, lit "too_short"),
     (is_institutional_news url title normalized, lit "institutional_news"),
     (is_outdated_content currentYear url title normalized 2,
       lit "outdated_content")]

/-! ## SHA-1 (`hashlib.sha1`) and UTF-8 encoding (`str.encode("utf-8")`)

`_save_markdown_to_disk` derives its filenames from
`hashlib.sha1(url.encode("utf-8")).hexdigest()[:10]`; the standard SHA-1 and
UTF-8 algorithms are reproduced here over `Nat`, with 32-bit wrap-around
written as `% 4294967296`. -/

/-- UTF-8 encoding of one code point. -/
def utf8Char (n : Nat) : List Nat :=
  if n < 128 then [n]
  else if n < 2048 then [192 + n / 64, 128 + n % 64]
  else if n < 65536 then [224 + n / 4096, 128 + n / 64 % 64, 128 + n % 64]
  else [240 + n / 262144, 128 + n / 4096 % 64, 128 + n / 64 % 64, 128 + n % 64]

/-- UTF-8 encoding of a string: its byte list. -/
def utf8 (s : PyStr) : List Nat := (s.map utf8Char).flatten

/-- 2^32. -/
def w32 : Nat := 4294967296

/-- Rotate a 32-bit word left by `n`. -/
def rotl (n x : Nat) : Nat := (x * 2 ^ n + x / 2 ^ (32 - n)) % w32

/-- SHA-1 message padding: append `0x80`, zeros to 56 mod 64, and the
64-bit big-endian bit length. -/
def sha1Pad (msg : List Nat) : List Nat :=
  let len := msg.length
  let k := (119 - len % 64) % 64
  let bitLen := len * 8
  msg ++ 128 :: List.replicate k 0 ++
    [bitLen / 2 ^ 56 % 256, bitLen / 2 ^ 48 % 256, bitLen / 2 ^ 40 % 256,
     bitLen / 2 ^ 32 % 256, bitLen / 2 ^ 24 % 256, bitLen / 2 ^ 16 % 256,
     bitLen / 2 ^ 8 % 256, bitLen % 256]

/-- Pack bytes into big-endian 32-bit words. -/
def toWords : List Nat → List Nat
  | b1 :: b2 :: b3 :: b4 :: r =>
    (b1 * 16777216 + b2 * 65536 + b3 * 256 + b4) :: toWords r
  | _ => []

/-- Extend the 16 block words by `fuel` further schedule words. -/
def extendW : List Nat → Nat → List Nat
  | ws, 0 => ws
  | ws, fuel + 1 =>
    let n := ws.length
    extendW
      (ws ++ [rotl 1 (((ws.getD (n - 3) 0) ^^^ (ws.getD (n - 8) 0)) ^^^
        ((ws.getD (n - 14) 0) ^^^ (ws.getD (n - 16) 0)))]) fuel

/-- SHA-1 round function. -/
def sha1F (i b c d : Nat) : Nat :=
  if i < 20 then (b &&& c) ||| ((4294967295 - b) &&& d)
  else if i < 40 then (b ^^^ c) ^^^ d
  else if i < 60 then ((b &&& c) ||| (b &&& d)) ||| (c &&& d)
  else (b ^^^ c) ^^^ d

/-- SHA-1 round constants. -/
def sha1K (i : Nat) : Nat :=
  if i < 20 then 1518500249 else if i < 40 then 1859775393
  else if i < 60 then 2400959708 else 3395469782

/-- The five-word SHA-1 state. -/
structure Sha1H where
  h0 : Nat
  h1 : Nat
  h2 : Nat
  h3 : Nat
  h4 : Nat
deriving DecidableEq

/-- One SHA-1 round on state `(a,b,c,d,e)`. -/
def sha1Round (w : List Nat) (i : Nat) (s : Sha1H) : Sha1H :=
  ⟨(rotl 5 s.h0 + sha1F i s.h1 s.h2 s.h3 + s.h4 + sha1K i + w.getD i 0) % w32,
   s.h0, rotl 30 s.h1, s.h2, s.h3⟩

/-- Run rounds `i, i+1, …` for `fuel` steps. -/
def sha1Rounds (w : List Nat) : Nat → Sha1H → Nat → Sha1H
  | _, s, 0 => s
  | i, s, fuel + 1 => sha1Rounds w (i + 1) (sha1Round w i s) fuel

/-- Compress one 64-byte block into the chaining state. -/
def sha1Block (h : Sha1H) (block : List Nat) : Sha1H :=
  let w := extendW (toWords block) 64
  let s := sha1Rounds w 0 h 80
  ⟨(h.h0 + s.h0) % w32, (h.h1 + s.h1) % w32, (h.h2 + s.h2) % w32,
   (h.h3 + s.h3) % w32, (h.h4 + s.h4) % w32⟩

/-- Fold the compression over all 64-byte chunks (`fuel` bounds the number
of chunks; padding makes the length a multiple of 64). -/
def sha1Chunks : Nat → Sha1H → List Nat → Sha1H
  | 0, h, _ => h
  | fuel + 1, h, bytes =>
    if bytes.isEmpty then h
    else sha1Chunks fuel (sha1Block h (bytes.take 64)) (bytes.drop 64)

/-- SHA-1 initial state. -/
def sha1Init : Sha1H := ⟨1732584193, 4023233417, 2562383102, 271733878, 3285377520⟩

/-- Code point of a lowercase hex digit. -/
def hexNibble (n : Nat) : Nat := if n < 10 then 48 + n else 87 + n

/-- Lowercase hex rendering of a 32-bit word. -/
def hex8 (v : Nat) : PyStr :=
  [hexNibble (v / 2 ^ 28 % 16), hexNibble (v / 2 ^ 24 % 16),
   hexNibble (v / 2 ^ 20 % 16), hexNibble (v / 2 ^ 16 % 16),
   hexNibble (v / 2 ^ 12 % 16), hexNibble (v / 2 ^ 8 % 16),
   hexNibble (v / 2 ^ 4 % 16), hexNibble (v % 16)]

/-- `hashlib.sha1(bytes).hexdigest()`. -/
def sha1Hex (bytes : List Nat) : PyStr :=
  let padded := sha1Pad bytes
  let h := sha1Chunks (padded.length + 1) sha1Init padded
  hex8 h.h0 ++ hex8 h.h1 ++ hex8 h.h2 ++ hex8 h.h3 ++ hex8 h.h4

/-! ## `CrawlWorker._slugify` and `CrawlWorker._save_markdown_to_disk`
(worker.py lines 104-128) -/

/-- Lowercase-letter-or-digit test (`[a-z0-9]`). -/
def isLowerAlnum (c : Nat) : Bool := (97 ≤ c && c ≤ 122) || (48 ≤ c && c ≤ 57)

/-- Collapse runs of `-` (code 45) to a single `-`. -/
def collapseDash : PyStr → PyStr
  | c1 :: c2 :: t =>
    if c1 = 45 && c2 = 45 then collapseDash (c2 :: t)
    else c1 :: collapseDash (c2 :: t)
  | l => l

/-- Python `s.strip("-")`. -/
def stripDash (s : PyStr) : PyStr :=
  ((s.dropWhile (fun c => c = 45)).reverse.dropWhile (fun c => c = 45)).reverse

/-- `CrawlWorker._slugify`: lower-case, replace runs of non-`[a-z0-9]` by a
single `-`, strip outer dashes, default `"page"`. -/
def slugify (value : PyStr) : PyStr :=
  let v0 := pyLower (pyStrip value)
  let v1 := collapseDash (v0.map (fun c => if isLowerAlnum c then c else 45))
  let v2 := stripDash v1
  if v2.isEmpty then lit "page" else v2

/-- `CrawlWorker._save_markdown_to_disk`.  The two `write_text` calls are
external filesystem effects, passed as the oracles `firstOk` / `fallbackOk`;
`excName` is the class name of the `OSError` raised when both fail.  Besides
the source's `(saved, reason)` pair, the model exposes the name of the file
actually written (`none` when both writes fail) so the filename's provenance
can be stated. -/
def save_markdown_to_disk (url title _content : PyStr)
    (firstOk fallbackOk : Bool) (excName : PyStr) :
    Bool × PyStr × Option PyStr :=
  let url_hash := (sha1Hex (utf8 url)).take 10
  let slug := (slugify (if title.isEmpty then url else title)).take 80
  let filename := slug ++ lit "-" ++ url_hash ++ lit ".md"
  if firstOk then (true, lit "saved", some filename)
  else if fallbackOk then
    (true, lit "saved_with_short_name", some (lit "page-" ++ url_hash ++ lit ".md"))
  else (false, lit "save_markdown_error:" ++ excName, none)

/-! ## The crawl result-processing loop
(`CrawlWorker.run_institutional_crawl`, worker.py lines 283-416)

The fetch phase (`crawler.arun`) is the external Page Fetcher; its output is
the list of fetched results.  Each result carries, besides the fetched data,
the oracles for the external effects its processing performs: the two
`write_text` attempts of the markdown snapshot and the outcome of
`process_and_save` (which may raise). -/

/-- Outcome of `IngestionService.process_and_save` for one page: either the
call raises (any `Exception`), or it returns a dict whose `saved` flag and
`reason` are given. -/
inductive IngestOutcome where
  | raises (excName : PyStr)
  | returns (saved : Bool) (reason : PyStr)
deriving DecidableEq

/-- One element of the fetched-results list, with effect oracles. -/
structure CrawlResult where
  success : Bool
  url : PyStr
  title : PyStr
  markdown : PyStr
  mdFirstWriteOk : Bool
  mdFallbackWriteOk : Bool
  mdExcName : PyStr
  ingest : IngestOutcome
deriving DecidableEq

/-- The parameters of `run_institutional_crawl` that the processing loop
reads, with `datetime.now().year` as `currentYear`. -/
structure CrawlConfig where
  maxPages : Nat
  persistToDb : Bool
  saveMarkdownFiles : Bool
  useAllowFilter : Bool
  minContentWords : Nat
  countValidPagesOnly : Bool
  currentYear : Nat
deriving DecidableEq

/-- The metrics dict initialised at worker.py lines 317-335. -/
structure Metrics where
  total_results : Nat
  finished_reason : PyStr
  target_valid_pages : Nat
  crawl_budget_pages : Nat
  accepted_valid_pages : Nat
  successful_results : Nat
  saved_docs : Nat
  saved_markdown_files : Nat
  skipped_invalid_content : Nat
  skipped_ingestion : Nat
  skipped_save_markdown : Nat
  skipped_processing_errors : Nat
  skipped_db_disabled : Nat
  blocked_by_host_filter : Nat
  blocked_by_allow_filter : Nat
  matched_allow_filter : Nat
  blocked_by_block_filter : Nat
deriving DecidableEq

/-- `ALLOW_PRIORITY_TOKENS` (worker.py lines 53-69). -/
def ALLOW_PRIORITY_TOKENS : List PyStr :=
  [lit "/admision", lit "/admisiones", lit "/ingreso", lit "/ingresantes",
   lit "/inscripcion", lit "/inscripciones", lit "/carreras", lit "/oferta-academica",
   lit "/ofertas-academicas", lit "/programas", lit "/plan-de-estudios",
   lit "/planes-de-estudio", lit "/requisitos", lit "/tramites", lit "/trámites"]

/-- `CrawlWorker._matches_allow_priority` (worker.py lines 75-78). -/
def matches_allow_priority (url title : PyStr) : Bool :=
  let haystack := pyStrip (pyLower url ++ lit " " ++ pyLower title)
  ALLOW_PRIORITY_TOKENS.any (fun token => containsSub token haystack)

/-- The crawl page budget (worker.py lines 287-289). -/
def crawl_budget (maxPages : Nat) (countValidPagesOnly : Bool) : Nat :=
  if countValidPagesOnly then min (max (maxPages * 4) (maxPages + 500)) 50000
  else maxPages

/-- The metrics dict as initialised before the loop (worker.py 317-335);
`blockedHost`/`blockedBlock` are the filter-stats counters read there. -/
def initMetrics (cfg : CrawlConfig) (totalResults blockedHost blockedBlock : Nat) :
    Metrics where
  total_results := totalResults
  finished_reason := lit "running"
  target_valid_pages := cfg.maxPages
  crawl_budget_pages := crawl_budget cfg.maxPages cfg.countValidPagesOnly
  accepted_valid_pages := 0
  successful_results := 0
  saved_docs := 0
  saved_markdown_files := 0
  skipped_invalid_content := 0
  skipped_ingestion := 0
  skipped_save_markdown := 0
  skipped_processing_errors := 0
  skipped_db_disabled := 0
  blocked_by_host_filter := blockedHost
  blocked_by_allow_filter := 0
  matched_allow_filter := 0
  blocked_by_block_filter := blockedBlock

/-- End of the valid-page path (worker.py lines 403-411): the progress hook
fires with the current metrics, then the target check may set
`finished_reason` and break. -/
def finishValid (cfg : CrawlConfig) (m4 : Metrics) : Metrics × List Metrics × Bool :=
  if cfg.countValidPagesOnly && cfg.maxPages ≤ m4.accepted_valid_pages then
    ({ m4 with finished_reason := lit "target_reached" }, [m4], true)
  else (m4, [m4], false)

/-- Processing of one fetched result (worker.py lines 337-411): the new
metrics, the metrics snapshots passed to `progress_hook` during this
iteration, and whether the loop breaks. -/
def processResult (cfg : CrawlConfig) (m : Metrics) (res : CrawlResult) :
    Metrics × List Metrics × Bool :=
  if !res.success then (m, [m], false)
  else
    let m1 := { m with successful_results := m.successful_results + 1 }
    match invalid_reason cfg.currentYear res.url res.title res.markdown
        cfg.minContentWords with
    | some _ =>
      let m2 := { m1 with skipped_invalid_content := m1.skipped_invalid_content + 1 }
      (m2, [m2], false)
    | none =>
      let m2 := { m1 with accepted_valid_pages := m1.accepted_valid_pages + 1 }
      let m3 :=
        if cfg.useAllowFilter && matches_allow_priority res.url res.title then
          { m2 with matched_allow_filter := m2.matched_allow_filter + 1 }
        else m2
      let mMd :=
        if cfg.saveMarkdownFiles then
          if (save_markdown_to_disk res.url res.title res.markdown
              res.mdFirstWriteOk res.mdFallbackWriteOk res.mdExcName).1 then
            { m3 with saved_markdown_files := m3.saved_markdown_files + 1 }
          else
            { m3 with skipped_save_markdown := m3.skipped_save_markdown + 1 }
        else m3
      if cfg.persistToDb then
        match res.ingest with
        | .raises _ =>
          let m4 := { mMd with
            skipped_processing_errors := mMd.skipped_processing_errors + 1 }
          (m4, [m4], false)
        | .returns saved _ =>
          if saved then
            finishValid cfg { mMd with saved_docs := mMd.saved_docs + 1 }
          else
            finishValid cfg { mMd with skipped_ingestion := mMd.skipped_ingestion + 1 }
      else
        finishValid cfg { mMd with skipped_db_disabled := mMd.skipped_db_disabled + 1 }

/-- The `for res in result` loop (worker.py lines 337-411): final metrics
and the concatenated hook snapshots. -/
def runLoop (cfg : CrawlConfig) : Metrics → List CrawlResult → Metrics × List Metrics
  | m, [] => (m, [])
  | m, r :: rs =>
    let step := processResult cfg m r
    if step.2.2 then (step.1, step.2.1)
    else
      let rest := runLoop cfg step.1 rs
      (rest.1, step.2.1 ++ rest.2)

/-- Whether the loop breaks before exhausting the result list. -/
def loopBreaks (cfg : CrawlConfig) : Metrics → List CrawlResult → Bool
  | _, [] => false
  | m, r :: rs =>
    let step := processResult cfg m r
    step.2.2 || loopBreaks cfg step.1 rs

/-- A result that takes the full valid-page path with no per-page processing
exception (so that the target check at the end of the iteration is reached). -/
def completesValidPath (cfg : CrawlConfig) (res : CrawlResult) : Bool :=
  res.success &&
    (invalid_reason cfg.currentYear res.url res.title res.markdown
      cfg.minContentWords).isNone &&
    !(cfg.persistToDb && (match res.ingest with | .raises _ => true | _ => false))

/-- The metrics value passed to the progress hook by one iteration of the
loop (the counters after the iteration's increments, before the target check
touches `finished_reason`). -/
def stepMetrics (cfg : CrawlConfig) (m : Metrics) (res : CrawlResult) : Metrics :=
  if !res.success then m
  else
    let m1 := { m with successful_results := m.successful_results + 1 }
    match invalid_reason cfg.currentYear res.url res.title res.markdown
        cfg.minContentWords with
    | some _ => { m1 with skipped_invalid_content := m1.skipped_invalid_content + 1 }
    | none =>
      let m2 := { m1 with accepted_valid_pages := m1.accepted_valid_pages + 1 }
      let m3 :=
        if cfg.useAllowFilter && matches_allow_priority res.url res.title then
          { m2 with matched_allow_filter := m2.matched_allow_filter + 1 }
        else m2
      let mMd :=
        if cfg.saveMarkdownFiles then
          if (save_markdown_to_disk res.url res.title res.markdown
              res.mdFirstWriteOk res.mdFallbackWriteOk res.mdExcName).1 then
            { m3 with saved_markdown_files := m3.saved_markdown_files + 1 }
          else
            { m3 with skipped_save_markdown := m3.skipped_save_markdown + 1 }
        else m3
      if cfg.persistToDb then
        match res.ingest with
        | .raises _ =>
          { mMd with skipped_processing_errors := mMd.skipped_processing_errors + 1 }
        | .returns saved _ =>
          if saved then { mMd with saved_docs := mMd.saved_docs + 1 }
          else { mMd with skipped_ingestion := mMd.skipped_ingestion + 1 }
      else { mMd with skipped_db_disabled := mMd.skipped_db_disabled + 1 }

/-- Whether the iteration processing `res` from metrics `m` breaks the loop:
only a fully processed valid page with the running `accepted_valid_pages`
count at or past the target does, and only when `countValidPagesOnly`. -/
def stepBreak (cfg : CrawlConfig) (m : Metrics) (res : CrawlResult) : Bool :=
  cfg.countValidPagesOnly && completesValidPath cfg res &&
    decide (cfg.maxPages ≤ m.accepted_valid_pages + 1)

/-- The whole result-processing phase (worker.py lines 313-416): initialise
metrics, run the loop, finalise `finished_reason`, fire the last hook call.
Returns the final metrics and every hook snapshot in order. -/
def run_institutional_crawl (cfg : CrawlConfig) (results : List CrawlResult)
    (blockedHost blockedBlock : Nat) : Metrics × List Metrics :=
  let m0 := initMetrics cfg results.length blockedHost blockedBlock
  let r := runLoop cfg m0 results
  let fin :=
    if r.1.finished_reason = lit "running" then
      { r.1 with finished_reason := lit "frontier_exhausted" }
    else r.1
  (fin, r.2 ++ [fin])

/-! ## Progress estimation (`app/api/scrape.py`)

Percentages are modelled as rationals.  Python's `round(x, 2)` rounds to two
decimals (ties, which arise only at exact half-hundredths, are immaterial to
the claims and are modelled as round-half-up). -/

/-- Computable `max` on ℚ (Python ties keep the same value either way). -/
def pyMaxQ (a b : ℚ) : ℚ := if a ≤ b then b else a

/-- Computable `min` on ℚ. -/
def pyMinQ (a b : ℚ) : ℚ := if a ≤ b then a else b

/-- `⌊q⌋` computed on the normalised fraction (denominator positive, so
Euclidean division of the numerator is the floor). -/
def pyFloorQ (q : ℚ) : ℤ := Int.ediv q.num q.den

/-- `round(x, 2)`. -/
def pyRound2 (x : ℚ) : ℚ := (pyFloorQ (x * 100 + 1 / 2) : ℤ) / 100

/-- `_safe_progress` (scrape.py lines 33-34). -/
def safe_progress (x : ℚ) : ℚ := pyMaxQ 0 (pyMinQ 100 (pyRound2 x))

/-- Python `int(q)`: truncation toward zero. -/
def pyInt (q : ℚ) : ℤ := if 0 ≤ q then pyFloorQ q else -pyFloorQ (-q)

/-- `_simulated_tracking_progress` (scrape.py lines 37-52). -/
def simulated_tracking_progress (elapsed : ℚ) : ℚ :=
  let t := pyMaxQ 0 elapsed
  if t ≤ 20 then safe_progress (2 + t / 20 * 8)
  else if t ≤ 60 then safe_progress (10 + (t - 20) / 40 * 15)
  else if t ≤ 120 then safe_progress (25 + (t - 60) / 60 * 15)
  else if t ≤ 180 then safe_progress (40 + (t - 120) / 60 * 12)
  else if t ≤ 240 then safe_progress (52 + (t - 180) / 60 * 10)
  else if t ≤ 300 then safe_progress (62 + (t - 240) / 60 * 8)
  else safe_progress (pyMinQ 82 (70 + (t - 300) / 120 * 12))

/-- The percentage stored by one `on_progress` call (scrape.py lines
153-169): `estimatePct` is the value `_estimate_progress` returned for the
metrics snapshot, `finishedReason` the snapshot's `finished_reason`, and
`currentPct` the job's stored `progress_pct` at the time of the call. -/
def on_progress_pct (estimatePct : ℚ) (finishedReason : PyStr) (currentPct : ℚ) : ℚ :=
  let pct := pyMaxQ estimatePct currentPct
  if finishedReason = lit "running" && pct ≤ currentPct && currentPct < 999 / 10 then
    safe_progress (currentPct + 1 / 10)
  else pct

/-- The `eta_seconds` stored by one `on_progress` call (scrape.py lines
170-173), from the merged percentage and the elapsed seconds. -/
def on_progress_eta (pct elapsed : ℚ) : Option ℤ :=
  if 3 ≤ pct && pct < 100 && 0 < elapsed then
    some (pyInt ((100 - pct) * elapsed / pct))
  else none

/-! ## `app/core/job_manager.py` -/

/-- A `JobProgress` record.  Timestamps are opaque integers supplied by the
caller ("now"). -/
structure JobRecord where
  job_id : PyStr
  status : PyStr
  phase : PyStr
  message : PyStr
  progress_pct : ℚ
  eta_seconds : Option ℤ
  pages_crawled : ℤ
  errors : List PyStr
  started_at : ℤ
  finished_at : Option ℤ
  last_updated_at : ℤ
  metrics : List (PyStr × ℤ)
deriving DecidableEq

/-- Python `dict` lookup (insertion-ordered association list). -/
def dictGet {α : Type} (k : PyStr) : List (PyStr × α) → Option α
  | [] => none
  | (k', v) :: t => if k' = k then some v else dictGet k t

/-- Python `d[k] = v`: replace in place, or append a new key. -/
def dictSet {α : Type} (k : PyStr) (v : α) : List (PyStr × α) → List (PyStr × α)
  | [] => [(k, v)]
  | (k', v') :: t => if k' = k then (k, v) :: t else (k', v') :: dictSet k v t

/-- The job registry `JobManager._jobs`. -/
abbrev Registry := List (PyStr × JobRecord)

/-- `JobManager.increment_metric` (job_manager.py lines 60-67): unknown job
ids are a silent no-op; an absent metrics key is treated as 0 and created;
`last_updated_at` is not refreshed. -/
def increment_metric (jobs : Registry) (job_id key : PyStr) (amount : ℤ) : Registry :=
  match dictGet job_id jobs with
  | none => jobs
  | some job =>
    let newVal := (dictGet key job.metrics).getD 0 + amount
    dictSet job_id { job with metrics := dictSet key newVal job.metrics } jobs

/-- The `update_job` call made by `run_scrape_task` on normal completion
(scrape.py lines 203-211): status `completed`, `progress_pct = 100.0` and
`eta_seconds = 0`. -/
def run_scrape_completion_update (now : ℤ) (j : JobRecord) : JobRecord :=
  { j with status := lit "completed", phase := lit "completado",
           message := lit "Scraping finalizado", progress_pct := 100,
           eta_seconds := some 0, finished_at := some now,
           last_updated_at := now }

/-! ## Concrete fixtures used by counterexamples and witnesses -/

/-- A crawl configuration with `countValidPagesOnly` and a target of one
valid page; persistence on, markdown snapshots off. -/
def cexCfg : CrawlConfig := ⟨1, true, false, false, 1, true, 2026⟩

/-- A successfully fetched valid page whose `process_and_save` raises. -/
def cexRaise : CrawlResult :=
  ⟨true, lit "https://u.edu/a", lit "",
   lit "palabras suficientes para el filtro de longitud",
   true, true, lit "", .raises (lit "RuntimeError")⟩

/-- A failed fetch. -/
def cexFail : CrawlResult :=
  ⟨false, lit "https://u.edu/b", lit "", lit "", true, true, lit "",
   .returns true (lit "saved")⟩

/-- The same valid page as `cexRaise`, with a clean ingest outcome. -/
def cexClean : CrawlResult :=
  ⟨true, lit "https://u.edu/a", lit "",
   lit "palabras suficientes para el filtro de longitud",
   true, true, lit "", .returns true (lit "saved")⟩

/-- A crawl configuration saving markdown snapshots, without persistence. -/
def cexCfgMd : CrawlConfig := ⟨5, false, true, false, 1, true, 2026⟩

/-- A valid page whose markdown snapshot write and fallback write both fail. -/
def cexSaveFail : CrawlResult :=
  ⟨true, lit "https://u.edu/c", lit "titulo",
   lit "palabras suficientes para el filtro de longitud",
   false, false, lit "OSError", .returns true (lit "saved")⟩

/-- A concrete job record for the C10 witness. -/
def witJob : JobRecord :=
  ⟨lit "j1", lit "running", lit "procesando", lit "msg", 10, none, 3, [],
   0, none, 7, [(lit "saved_docs", 2)]⟩

/-! # Theorems -/

/-! ## Dictionary lemmas -/

theorem dictGet_dictSet_same {α : Type} (k : PyStr) (v : α) (d : List (PyStr × α)) :
    dictGet k (dictSet k v d) = some v := by
  induction d with
  | nil => simp [dictSet, dictGet]
  | cons hd t ih =>
    obtain ⟨k', v'⟩ := hd
    by_cases hk : k' = k <;> simp [dictSet, dictGet, hk, ih]

theorem dictGet_dictSet_ne {α : Type} (k k' : PyStr) (v : α) (d : List (PyStr × α))
    (hne : k' ≠ k) : dictGet k' (dictSet k v d) = dictGet k' d := by
  induction d with
  | nil => simp [dictSet, dictGet, Ne.symm hne]
  | cons hd t ih =>
    obtain ⟨k'', v''⟩ := hd
    by_cases hk : k'' = k
    · subst hk
      simp [dictSet, dictGet, Ne.symm hne]
    · simp [dictSet, dictGet, hk, ih]

/-- C10: `increment_metric` on a registered job adds `amount` to the given
metrics key (an absent key counts as 0 and is created), and changes nothing
else: no other metrics key, no other field of the job record (in particular
`last_updated_at`), and no other job in the registry. -/
theorem increment_metric_spec (jobs : Registry) (job_id key : PyStr) (amount : ℤ)
    (j : JobRecord) (hj : dictGet job_id jobs = some j) :
    ∃ j', dictGet job_id (increment_metric jobs job_id key amount) = some j' ∧
      dictGet key j'.metrics = some ((dictGet key j.metrics).getD 0 + amount) ∧
      (∀ k, k ≠ key → dictGet k j'.metrics = dictGet k j.metrics) ∧
      j'.job_id = j.job_id ∧ j'.status = j.status ∧ j'.phase = j.phase ∧
      j'.message = j.message ∧ j'.progress_pct = j.progress_pct ∧
      j'.eta_seconds = j.eta_seconds ∧ j'.pages_crawled = j.pages_crawled ∧
      j'.errors = j.errors ∧ j'.started_at = j.started_at ∧
      j'.finished_at = j.finished_at ∧ j'.last_updated_at = j.last_updated_at ∧
      (∀ oid, oid ≠ job_id →
        dictGet oid (increment_metric jobs job_id key amount) = dictGet oid jobs) := by
  refine ⟨{ j with
      metrics := dictSet key ((dictGet key j.metrics).getD 0 + amount) j.metrics },
    ?_, ?_, ?_, rfl, rfl, rfl, rfl, rfl, rfl, rfl, rfl, rfl, rfl, rfl, ?_⟩
  · unfold increment_metric
    rw [hj]
    exact dictGet_dictSet_same job_id _ jobs
  · exact dictGet_dictSet_same key _ j.metrics
  · intro k hk
    exact dictGet_dictSet_ne key k _ j.metrics hk
  · intro oid hoid
    unfold increment_metric
    rw [hj]
    exact dictGet_dictSet_ne job_id oid _ jobs hoid

/-- Witness for C10 at a concrete registry: the hypothesis holds and the
conclusion follows by the theorem. -/
theorem increment_metric_spec_witness :
    dictGet (lit "j1") [(lit "j1", witJob)] = some witJob ∧
    (∃ j', dictGet (lit "j1")
        (increment_metric [(lit "j1", witJob)] (lit "j1") (lit "saved_docs") 1) = some j' ∧
      dictGet (lit "saved_docs") j'.metrics =
        some ((dictGet (lit "saved_docs") witJob.metrics).getD 0 + 1) ∧
      (∀ k, k ≠ lit "saved_docs" → dictGet k j'.metrics = dictGet k witJob.metrics) ∧
      j'.job_id = witJob.job_id ∧ j'.status = witJob.status ∧ j'.phase = witJob.phase ∧
      j'.message = witJob.message ∧ j'.progress_pct = witJob.progress_pct ∧
      j'.eta_seconds = witJob.eta_seconds ∧ j'.pages_crawled = witJob.pages_crawled ∧
      j'.errors = witJob.errors ∧ j'.started_at = witJob.started_at ∧
      j'.finished_at = witJob.finished_at ∧ j'.last_updated_at = witJob.last_updated_at ∧
      (∀ oid, oid ≠ lit "j1" →
        dictGet oid (increment_metric [(lit "j1", witJob)] (lit "j1") (lit "saved_docs") 1)
          = dictGet oid [(lit "j1", witJob)])) :=
  ⟨by simp [dictGet],
   increment_metric_spec [(lit "j1", witJob)] (lit "j1") (lit "saved_docs") 1 witJob
     (by simp [dictGet])⟩

/-! ## Progress estimator lemmas -/

theorem pyFloorQ_eq_floor (q : ℚ) : pyFloorQ q = ⌊q⌋ := by
  rw [Rat.floor_def]
  rfl

theorem pyRound2_ge (x : ℚ) : x - 1 / 200 ≤ pyRound2 x := by
  unfold pyRound2
  rw [pyFloorQ_eq_floor]
  have h := Int.sub_one_lt_floor (x * 100 + 1 / 2)
  have h100 : (0 : ℚ) < 100 := by norm_num
  rw [le_div_iff₀ h100]
  linarith

/-- C4: each `on_progress` call stores a percentage at least the job's
previously stored one, whatever `_estimate_progress` returned for the
metrics snapshot; consequently any sequence of hook invocations leaves
`progress_pct` non-decreasing. -/
theorem on_progress_pct_monotone :
    (∀ (est : ℚ) (fr : PyStr) (cur : ℚ), cur ≤ on_progress_pct est fr cur) ∧
    (∀ (upds : List (ℚ × PyStr)) (cur : ℚ),
      cur ≤ upds.foldl (fun c u => on_progress_pct u.1 u.2 c) cur) := by
  have single : ∀ (est : ℚ) (fr : PyStr) (cur : ℚ), cur ≤ on_progress_pct est fr cur := by
    intro est fr cur
    unfold on_progress_pct
    dsimp only
    split
    case isTrue h =>
      simp only [Bool.and_eq_true, decide_eq_true_eq] at h
      obtain ⟨-, hcur⟩ := h
      have hr := pyRound2_ge (cur + 1 / 10)
      unfold safe_progress pyMaxQ pyMinQ
      split_ifs <;> linarith
    case isFalse h =>
      unfold pyMaxQ
      split_ifs with h1
      · exact le_refl cur
      · linarith [le_of_not_le h1]
  refine ⟨single, ?_⟩
  intro upds
  induction upds with
  | nil => intro cur; exact le_refl cur
  | cons u t ih =>
    intro cur
    calc cur ≤ on_progress_pct u.1 u.2 cur := single u.1 u.2 cur
      _ ≤ _ := ih (on_progress_pct u.1 u.2 cur)

/-- C5 counterexample: at `pct = 50` (so `3 ≤ pct < 100`) but zero elapsed
time, the hook stores `eta_seconds = None`, while the claim requires the
formula value `(100−50)·0/50 = 0`. -/
theorem on_progress_eta_counterexample :
    (3 : ℚ) ≤ 50 ∧ (50 : ℚ) < 100 ∧ on_progress_eta 50 0 = none := by
  refine ⟨by norm_num, by norm_num, ?_⟩
  norm_num [on_progress_eta]

/-- C5 (amended): the hook's `eta_seconds` is `None` exactly when `pct < 3`,
`pct ≥ 100` or no time has elapsed; when `3 ≤ pct < 100` and `elapsed > 0`
it is the integer part of `(100 − pct) · elapsed / pct`.  Separately, the
completion update of `run_scrape_task` stores `progress_pct = 100` together
with `eta_seconds = 0` (not `None`). -/
theorem on_progress_eta_spec (pct elapsed : ℚ) :
    (on_progress_eta pct elapsed = none ↔ (pct < 3 ∨ 100 ≤ pct ∨ elapsed ≤ 0)) ∧
    (3 ≤ pct → pct < 100 → 0 < elapsed →
      on_progress_eta pct elapsed = some ⌊(100 - pct) * elapsed / pct⌋) ∧
    (∀ (now : ℤ) (j : JobRecord),
      (run_scrape_completion_update now j).progress_pct = 100 ∧
      (run_scrape_completion_update now j).eta_seconds = some 0) := by
  refine ⟨?_, ?_, fun now j => ⟨rfl, rfl⟩⟩
  · unfold on_progress_eta
    split
    case isTrue h =>
      simp only [Bool.and_eq_true, decide_eq_true_eq] at h
      simp only [reduceCtorEq, false_iff]
      push_neg
      exact ⟨by linarith [h.1.1], by linarith [h.1.2], by linarith [h.2]⟩
    case isFalse h =>
      simp only [Bool.and_eq_true, decide_eq_true_eq, not_and] at h
      simp only [true_iff]
      by_contra hc
      push_neg at hc
      exact absurd (h ⟨by linarith [hc.1], by linarith [hc.2.1]⟩) (by simpa using hc.2.2)
  · intro h1 h2 h3
    unfold on_progress_eta
    rw [if_pos]
    · congr 1
      unfold pyInt
      rw [if_pos, pyFloorQ_eq_floor]
      have hp : (0 : ℚ) < pct := by linarith
      have : (0 : ℚ) ≤ (100 - pct) * elapsed := by nlinarith
      positivity
    · simp only [Bool.and_eq_true, decide_eq_true_eq]
      exact ⟨⟨h1, h2⟩, h3⟩

/-- Witness for C5's amended theorem at `pct = 50`, `elapsed = 10`. -/
theorem on_progress_eta_spec_witness :
    (3 : ℚ) ≤ 50 ∧ (50 : ℚ) < 100 ∧ (0 : ℚ) < 10 ∧
    on_progress_eta 50 10 = some ⌊((100 : ℚ) - 50) * 10 / 50⌋ :=
  ⟨by norm_num, by norm_num, by norm_num,
    (on_progress_eta_spec 50 10).2.1 (by norm_num) (by norm_num) (by norm_num)⟩

/-! ## Content Validator -/

/-- C2: the Content Validator returns the first matching invalid reason in
the fixed priority order empty content, blank after trim, bare root path,
not-found marker, word count below the minimum, institutional-news
heuristic, outdated-content heuristic; no match means valid.  The source's
if-chain coincides with the specification's ordered first-match form. -/
theorem invalid_reason_first_match (currentYear : Nat) (url title content : PyStr)
    (min_content_words : Nat) :
    invalid_reason currentYear url title content min_content_words =
      spec_invalid_reason currentYear url title content min_content_words := by
  unfold invalid_reason spec_invalid_reason firstMatch
  rfl

/-- C3 counterexample: a URL containing both `/carreras/` and `/prensa/`
(and nothing matching an admission or conditional hint) is classified as
institutional news by the Content Validator, because `carreras` is only a
context hint and does not by itself activate the academic-priority
override. -/
theorem carreras_prensa_counterexample :
    containsSub (lit "/carreras/") (lit "https://uni.edu/carreras/prensa/nota") = true ∧
    containsSub (lit "/prensa/") (lit "https://uni.edu/carreras/prensa/nota") = true ∧
    is_institutional_news (lit "https://uni.edu/carreras/prensa/nota") (lit "") (lit "") = true ∧
    invalid_reason 2026 (lit "https://uni.edu/carreras/prensa/nota") (lit "")
      (lit "texto con suficientes palabras para pasar el filtro de longitud") 5
      = some (lit "institutional_news") := by
  refine ⟨by decide, by decide, by decide, by decide⟩

/-- C3 (amended): the override that forces validity is the academic-priority
predicate: a page matching it is never classified as institutional news, and
any `ADMISSION_PRIORITY_HINTS` token in the combined url/title/content text
activates it.  A URL containing `/carreras/` alone matches only the context
hint list, which is insufficient without a conditional hint, so
`/carreras/` + `/prensa/` is still news. -/
theorem priority_overrides_news (url title content : PyStr) :
    (is_priority_academic_content url title content = true →
      is_institutional_news url title content = false) ∧
    (ADMISSION_PRIORITY_HINTS.any (fun h => containsSub h
        (cfNormalize url ++ lit " " ++ cfNormalize title ++ lit " " ++
          cfNormalize (content.take 2000))) = true →
      is_priority_academic_content url title content = true) := by
  constructor
  · intro hp
    unfold is_institutional_news
    dsimp only
    rw [hp]
    simp
  · intro ha
    unfold is_priority_academic_content
    dsimp only
    rw [ha]
    simp

/-- Witness for C3's amended theorem: an admissions URL that also contains a
news token is not classified as news. -/
theorem priority_overrides_news_witness :
    is_priority_academic_content (lit "https://uni.edu/admision/prensa/nota")
      (lit "") (lit "") = true ∧
    is_institutional_news (lit "https://uni.edu/admision/prensa/nota")
      (lit "") (lit "") = false :=
  ⟨by decide,
   (priority_overrides_news (lit "https://uni.edu/admision/prensa/nota")
     (lit "") (lit "")).1 (by decide)⟩

/-! ## Crawl-loop lemmas -/

theorem processResult_eq (cfg : CrawlConfig) (m : Metrics) (r : CrawlResult) :
    processResult cfg m r =
      (if stepBreak cfg m r then
        { stepMetrics cfg m r with finished_reason := lit "target_reached" }
       else stepMetrics cfg m r,
       [stepMetrics cfg m r], stepBreak cfg m r) := by
  unfold processResult stepMetrics stepBreak completesValidPath finishValid
  cases hs : r.success
  · simp
  · cases hir : invalid_reason cfg.currentYear r.url r.title r.markdown cfg.minContentWords
    · cases hing : r.ingest <;> by_cases hdb : cfg.persistToDb <;>
        simp [hdb] <;> split_ifs <;> simp_all
    · simp

theorem stepMetrics_fields (cfg : CrawlConfig) (m : Metrics) (r : CrawlResult) :
    (stepMetrics cfg m r).finished_reason = m.finished_reason ∧
    (stepMetrics cfg m r).total_results = m.total_results ∧
    (stepMetrics cfg m r).successful_results =
      m.successful_results + (if r.success then 1 else 0) ∧
    (stepMetrics cfg m r).accepted_valid_pages =
      m.accepted_valid_pages + (if r.success &&
        (invalid_reason cfg.currentYear r.url r.title r.markdown
          cfg.minContentWords).isNone then 1 else 0) := by
  unfold stepMetrics
  cases hs : r.success
  · simp
  · cases hir : invalid_reason cfg.currentYear r.url r.title r.markdown cfg.minContentWords
    · cases hing : r.ingest <;> by_cases hdb : cfg.persistToDb <;>
        simp [hdb] <;> split_ifs <;> simp_all
    · simp

theorem runLoop_reason_spec (cfg : CrawlConfig) : ∀ (rs : List CrawlResult) (m : Metrics),
    m.finished_reason = lit "running" →
    (∀ s ∈ (runLoop cfg m rs).2, s.finished_reason = lit "running") ∧
    ((runLoop cfg m rs).1.finished_reason = lit "target_reached" ↔
      loopBreaks cfg m rs = true) ∧
    ((runLoop cfg m rs).1.finished_reason = lit "running" ∨
      (runLoop cfg m rs).1.finished_reason = lit "target_reached") := by
  intro rs
  induction rs with
  | nil =>
    intro m hm
    refine ⟨by simp [runLoop], ?_, Or.inl (by simpa [runLoop] using hm)⟩
    simp only [runLoop, loopBreaks, hm]
    constructor
    · intro h
      exact absurd h (by decide)
    · intro h
      exact absurd h (by decide)
  | cons r t ih =>
    intro m hm
    have hsm := (stepMetrics_fields cfg m r).1
    rw [hm] at hsm
    by_cases hb : stepBreak cfg m r = true
    · refine ⟨?_, ?_, ?_⟩
      · intro s hsnap
        simp only [runLoop, processResult_eq, hb, if_true] at hsnap
        simp only [List.mem_singleton] at hsnap
        rw [hsnap]
        exact hsm
      · simp [runLoop, processResult_eq, hb, loopBreaks]
      · simp [runLoop, processResult_eq, hb]
    · have hb' : stepBreak cfg m r = false := by simpa using hb
      obtain ⟨ihsnap, ihiff, ihor⟩ := ih (stepMetrics cfg m r) hsm
      refine ⟨?_, ?_, ?_⟩
      · intro s hsnap
        simp only [runLoop, processResult_eq, hb', if_false, Bool.false_eq_true,
          List.mem_append, List.mem_singleton] at hsnap
        rcases hsnap with h | h
        · rw [h]; exact hsm
        · exact ihsnap s h
      · simp only [runLoop, processResult_eq, hb', if_false, Bool.false_eq_true,
          loopBreaks, Bool.false_or]
        exact ihiff
      · simp only [runLoop, processResult_eq, hb', if_false, Bool.false_eq_true]
        exact ihor

theorem runLoop_inv (cfg : CrawlConfig) : ∀ (rs : List CrawlResult) (m : Metrics),
    m.accepted_valid_pages ≤ m.successful_results →
    m.successful_results + rs.length ≤ m.total_results →
    (∀ s ∈ (runLoop cfg m rs).2,
      s.accepted_valid_pages ≤ s.successful_results ∧
        s.successful_results ≤ s.total_results) ∧
    (runLoop cfg m rs).1.accepted_valid_pages ≤
      (runLoop cfg m rs).1.successful_results ∧
    (runLoop cfg m rs).1.successful_results ≤ (runLoop cfg m rs).1.total_results := by
  intro rs
  induction rs with
  | nil =>
    intro m h1 h2
    refine ⟨by simp [runLoop], by simpa [runLoop] using h1, ?_⟩
    simp only [runLoop]
    omega
  | cons r t ih =>
    intro m h1 h2
    obtain ⟨hreason, htot, hsucc, hacc⟩ := stepMetrics_fields cfg m r
    have hlen : (r :: t).length = t.length + 1 := List.length_cons r t
    have hsm1 : (stepMetrics cfg m r).accepted_valid_pages ≤
        (stepMetrics cfg m r).successful_results := by
      rw [hsucc, hacc]
      split_ifs with hc1 hc2
      · omega
      · simp only [Bool.and_eq_true] at hc1
        exact absurd hc1.1 hc2
      · omega
      · omega
    have hsm2 : (stepMetrics cfg m r).successful_results + t.length ≤
        (stepMetrics cfg m r).total_results := by
      rw [hsucc, htot]
      rw [hlen] at h2
      split_ifs <;> omega
    by_cases hb : stepBreak cfg m r = true
    · refine ⟨?_, ?_, ?_⟩
      · intro s hsnap
        simp only [runLoop, processResult_eq, hb, if_true, List.mem_singleton] at hsnap
        rw [hsnap]
        exact ⟨hsm1, by omega⟩
      · simpa [runLoop, processResult_eq, hb] using hsm1
      · simp only [runLoop, processResult_eq, hb, if_true]
        show (stepMetrics cfg m r).successful_results ≤
          (stepMetrics cfg m r).total_results
        omega
    · have hb' : stepBreak cfg m r = false := by simpa using hb
      obtain ⟨ihsnap, ihacc, ihtot⟩ := ih (stepMetrics cfg m r) hsm1 hsm2
      refine ⟨?_, ?_, ?_⟩
      · intro s hsnap
        simp only [runLoop, processResult_eq, hb', if_false, Bool.false_eq_true,
          List.mem_append, List.mem_singleton] at hsnap
        rcases hsnap with h | h
        · rw [h]
          exact ⟨hsm1, by omega⟩
        · exact ihsnap s h
      · simpa [runLoop, processResult_eq, hb'] using ihacc
      · simpa [runLoop, processResult_eq, hb'] using ihtot

/-- C6: every metrics snapshot passed to the progress hook (including the
final one) satisfies
`accepted_valid_pages ≤ successful_results ≤ total_results`. -/
theorem metrics_invariant (cfg : CrawlConfig) (rs : List CrawlResult) (bh bb : Nat) :
    ∀ s ∈ (run_institutional_crawl cfg rs bh bb).2,
      s.accepted_valid_pages ≤ s.successful_results ∧
        s.successful_results ≤ s.total_results := by
  intro s hs
  have h0 := runLoop_inv cfg rs (initMetrics cfg rs.length bh bb)
    (by simp [initMetrics]) (by simp [initMetrics])
  obtain ⟨hsnap, hacc, htot⟩ := h0
  unfold run_institutional_crawl at hs
  simp only [List.mem_append, List.mem_singleton] at hs
  rcases hs with h | h
  · exact hsnap s h
  · rw [h]
    split_ifs <;> exact ⟨hacc, htot⟩

/-- Witness for C6: a concrete two-result crawl; the final metrics snapshot
is a member of the snapshot list and satisfies the invariant. -/
theorem metrics_invariant_witness :
    ((run_institutional_crawl cexCfg [cexRaise, cexFail] 0 0).1 ∈
      (run_institutional_crawl cexCfg [cexRaise, cexFail] 0 0).2) ∧
    ((run_institutional_crawl cexCfg [cexRaise, cexFail] 0 0).1.accepted_valid_pages ≤
      (run_institutional_crawl cexCfg [cexRaise, cexFail] 0 0).1.successful_results ∧
    (run_institutional_crawl cexCfg [cexRaise, cexFail] 0 0).1.successful_results ≤
      (run_institutional_crawl cexCfg [cexRaise, cexFail] 0 0).1.total_results) :=
  ⟨by decide, metrics_invariant cexCfg [cexRaise, cexFail] 0 0 _ (by decide)⟩

/-- C1 counterexample: with `countValidPagesOnly` and target 1, the first of
two fetched results is accepted as valid (the running count reaches the
target with one result still unprocessed) but its `process_and_save` raises,
so the target check is skipped and the crawl ends `frontier_exhausted`, not
`target_reached` as the claim requires. -/
theorem finished_reason_counterexample :
    cexCfg.countValidPagesOnly = true ∧
    cexCfg.maxPages = 1 ∧
    [cexRaise, cexFail].length = 2 ∧
    ((run_institutional_crawl cexCfg [cexRaise, cexFail] 0 0).2.head?.map
      (fun s => s.accepted_valid_pages)) = some 1 ∧
    (run_institutional_crawl cexCfg [cexRaise, cexFail] 0 0).1.finished_reason =
      lit "frontier_exhausted" :=
  ⟨rfl, rfl, rfl, by decide, by decide⟩

/-- C1 (amended): `finished_reason` starts `running` and ends as exactly one
of `target_reached` / `frontier_exhausted`; the loop breaks — and the final
reason is `target_reached` — exactly when `countValidPagesOnly` is set and
some result completes the full valid-page path (valid, no per-page
processing exception) at a point where `accepted_valid_pages` has reached
`maxPages`; otherwise the reason is `frontier_exhausted`.  The value is
write-once: every hook snapshot before the final one still carries
`running`, and the final snapshot carries the terminal value. -/
theorem finished_reason_spec (cfg : CrawlConfig) (rs : List CrawlResult) (bh bb : Nat) :
    (initMetrics cfg rs.length bh bb).finished_reason = lit "running" ∧
    ((run_institutional_crawl cfg rs bh bb).1.finished_reason = lit "target_reached" ∨
      (run_institutional_crawl cfg rs bh bb).1.finished_reason =
        lit "frontier_exhausted") ∧
    ((run_institutional_crawl cfg rs bh bb).1.finished_reason = lit "target_reached" ↔
      loopBreaks cfg (initMetrics cfg rs.length bh bb) rs = true) ∧
    (∀ (m : Metrics) (r : CrawlResult),
      (processResult cfg m r).2.2 = stepBreak cfg m r) ∧
    (((run_institutional_crawl cfg rs bh bb).2.dropLast).all
      (fun s => s.finished_reason == lit "running") = true) ∧
    (run_institutional_crawl cfg rs bh bb).2.getLast? =
      some (run_institutional_crawl cfg rs bh bb).1 := by
  have h0 : (initMetrics cfg rs.length bh bb).finished_reason = lit "running" := rfl
  obtain ⟨hsnap, hiff, hor⟩ :=
    runLoop_reason_spec cfg rs (initMetrics cfg rs.length bh bb) h0
  refine ⟨h0, ?_, ?_, ?_, ?_, ?_⟩
  · unfold run_institutional_crawl
    dsimp only
    rcases hor with h | h
    · rw [if_pos h]
      exact Or.inr rfl
    · rw [if_neg (by rw [h]; decide)]
      exact Or.inl h
  · unfold run_institutional_crawl
    dsimp only
    rcases hor with h | h
    · rw [if_pos h]
      simp only []
      constructor
      · intro hcontra
        exact absurd hcontra (by decide)
      · intro hbreaks
        exact absurd (hiff.mpr hbreaks) (by rw [h]; decide)
    · rw [if_neg (by rw [h]; decide)]
      exact hiff
  · intro m r
    simp [processResult_eq]
  · unfold run_institutional_crawl
    dsimp only
    rw [List.dropLast_concat, List.all_eq_true]
    intro s hsmem
    rw [beq_iff_eq]
    exact hsnap s hsmem
  · unfold run_institutional_crawl
    dsimp only
    exact List.getLast?_concat _

/-! ## Markdown snapshot fallback -/

theorem stepMetrics_skipped_save (cfg : CrawlConfig) (m : Metrics) (r : CrawlResult)
    (hs : r.success = true)
    (hv : invalid_reason cfg.currentYear r.url r.title r.markdown
      cfg.minContentWords = none)
    (hmd : cfg.saveMarkdownFiles = true)
    (h1 : r.mdFirstWriteOk = false) (h2 : r.mdFallbackWriteOk = false) :
    (stepMetrics cfg m r).skipped_save_markdown = m.skipped_save_markdown + 1 := by
  unfold stepMetrics
  rw [hs, hv]
  have hsave : (save_markdown_to_disk r.url r.title r.markdown
      r.mdFirstWriteOk r.mdFallbackWriteOk r.mdExcName).1 = false := by
    rw [h1, h2]
    rfl
  cases hing : r.ingest <;> by_cases hdb : cfg.persistToDb <;>
    simp [hmd, hsave, hdb] <;> split_ifs <;> simp_all

set_option maxRecDepth 100000 in
/-- C9 counterexample: the fallback filename written after a first
`write_text` failure is a function of the page URL, not of a content hash:
two different contents under one URL give the same fallback file, while one
content under two different URLs gives different fallback files. -/
theorem save_markdown_filename_counterexample :
    lit "contenido uno" ≠ lit "contenido dos" ∧
    (save_markdown_to_disk (lit "https://u.edu/a") (lit "t") (lit "contenido uno")
        false true (lit "OSError")).2.2 =
      (save_markdown_to_disk (lit "https://u.edu/a") (lit "t") (lit "contenido dos")
        false true (lit "OSError")).2.2 ∧
    lit "https://u.edu/a" ≠ lit "https://u.edu/b" ∧
    (save_markdown_to_disk (lit "https://u.edu/a") (lit "t") (lit "contenido uno")
        false true (lit "OSError")).2.2 ≠
      (save_markdown_to_disk (lit "https://u.edu/b") (lit "t") (lit "contenido uno")
        false true (lit "OSError")).2.2 := by
  refine ⟨by decide, by decide, by decide, by decide⟩

/-- C9 (amended): on a first-write failure the save falls back to the
shortened deterministic filename `page-<sha1(url)[:10]>.md` derived from a
hash of the page URL; if the fallback write also fails the result is
`(False, "save_markdown_error:<ExcName>")`, the loop counts the page under
`skipped_save_markdown`, and processing continues — the iteration breaks the
loop only through the ordinary target check. -/
theorem save_markdown_fallback_spec (url title content excName : PyStr)
    (cfg : CrawlConfig) (m : Metrics) (r : CrawlResult) :
    (save_markdown_to_disk url title content false true excName =
      (true, lit "saved_with_short_name",
        some (lit "page-" ++ (sha1Hex (utf8 url)).take 10 ++ lit ".md"))) ∧
    (save_markdown_to_disk url title content false false excName =
      (false, lit "save_markdown_error:" ++ excName, none)) ∧
    (r.success = true →
      invalid_reason cfg.currentYear r.url r.title r.markdown
        cfg.minContentWords = none →
      cfg.saveMarkdownFiles = true →
      r.mdFirstWriteOk = false → r.mdFallbackWriteOk = false →
      (stepMetrics cfg m r).skipped_save_markdown = m.skipped_save_markdown + 1 ∧
      (processResult cfg m r).2.2 = stepBreak cfg m r) := by
  refine ⟨rfl, rfl, fun hs hv hmd h1 h2 => ⟨?_, ?_⟩⟩
  · exact stepMetrics_skipped_save cfg m r hs hv hmd h1 h2
  · simp [processResult_eq]

/-- Witness for C9 at a concrete page whose two snapshot writes both fail:
the crawl counts one skipped save and the loop does not break. -/
theorem save_markdown_fallback_spec_witness :
    cexSaveFail.success = true ∧
    invalid_reason cexCfgMd.currentYear cexSaveFail.url cexSaveFail.title
      cexSaveFail.markdown cexCfgMd.minContentWords = none ∧
    cexCfgMd.saveMarkdownFiles = true ∧
    cexSaveFail.mdFirstWriteOk = false ∧
    cexSaveFail.mdFallbackWriteOk = false ∧
    ((stepMetrics cexCfgMd (initMetrics cexCfgMd 1 0 0) cexSaveFail).skipped_save_markdown
        = (initMetrics cexCfgMd 1 0 0).skipped_save_markdown + 1 ∧
      (processResult cexCfgMd (initMetrics cexCfgMd 1 0 0) cexSaveFail).2.2 =
        stepBreak cexCfgMd (initMetrics cexCfgMd 1 0 0) cexSaveFail) :=
  ⟨rfl, by decide, rfl, rfl, rfl,
    (save_markdown_fallback_spec (lit "x") (lit "t") (lit "c") (lit "e")
      cexCfgMd (initMetrics cexCfgMd 1 0 0) cexSaveFail).2.2
      rfl (by decide) rfl rfl rfl⟩

/-! ## String lemmas for the Domain Normalizer -/

theorem pyLowerChar_idem (c : Nat) : pyLowerChar (pyLowerChar c) = pyLowerChar c := by
  unfold pyLowerChar
  split_ifs with h1 h2 <;>
    simp only [Bool.and_eq_true, decide_eq_true_eq] at * <;> omega

theorem pyLower_idem (l : PyStr) : pyLower (pyLower l) = pyLower l := by
  unfold pyLower
  rw [List.map_map]
  exact List.map_congr_left (fun c _ => pyLowerChar_idem c)

theorem pyLowerChar_eq_self_of_lt (c n : Nat) (hn : n < 97) (h : pyLowerChar c = n) :
    c = n := by
  unfold pyLowerChar at h
  split_ifs at h with hc
  · simp only [Bool.and_eq_true, decide_eq_true_eq] at hc
    omega
  · exact h

theorem mem_pyLower_low (x : Nat) (hx : x < 97) (l : PyStr) (h : x ∈ pyLower l) :
    x ∈ l := by
  obtain ⟨c, hc, hcl⟩ := List.mem_map.mp h
  have := pyLowerChar_eq_self_of_lt c x hx hcl
  subst this
  exact hc

theorem pyLower_drop (l : PyStr) (n : Nat) : pyLower (l.drop n) = (pyLower l).drop n :=
  List.map_drop pyLowerChar l n

theorem pyRstrip_front (l : PyStr) : pyRstrip l <+: l := by
  unfold pyRstrip
  have h : l.reverse.dropWhile pyIsSpace <:+ l.reverse := List.dropWhile_suffix pyIsSpace
  have h2 := List.reverse_prefix.mpr h
  rwa [List.reverse_reverse] at h2

theorem pyStrip_part (l : PyStr) : pyStrip l <:+: l :=
  (pyRstrip_front (pyLstrip l)).isInfix.trans (List.dropWhile_suffix pyIsSpace).isInfix

theorem pyStrip_length_le (l : PyStr) : (pyStrip l).length ≤ l.length :=
  (pyStrip_part l).length_le

theorem mem_pyStrip (x : Nat) (l : PyStr) (h : x ∈ pyStrip l) : x ∈ l :=
  (pyStrip_part l).subset h

theorem pyStrip_eq_self_parts (l : PyStr) (h : pyStrip l = l) :
    pyLstrip l = l ∧ pyRstrip l = l := by
  have hs1 : pyLstrip l <:+ l := List.dropWhile_suffix pyIsSpace
  have hl1 : (pyLstrip l).length ≤ l.length := hs1.length_le
  have hl2 : (pyRstrip (pyLstrip l)).length ≤ (pyLstrip l).length :=
    (pyRstrip_front (pyLstrip l)).length_le
  have hl3 : (pyStrip l).length = l.length := by rw [h]
  have hstrip : (pyStrip l).length = (pyRstrip (pyLstrip l)).length := rfl
  have hleq : pyLstrip l = l := hs1.eq_of_length (by omega)
  refine ⟨hleq, ?_⟩
  unfold pyStrip at h
  rwa [hleq] at h

theorem dropWhile_eq_self_head (p : Nat → Bool) (c : Nat) (t : List Nat)
    (h : List.dropWhile p (c :: t) = c :: t) : p c = false := by
  by_cases hc : p c = true
  · rw [List.dropWhile_cons, if_pos hc] at h
    have hlen := congrArg List.length h
    have hle : (List.dropWhile p t).length ≤ t.length :=
      (List.dropWhile_suffix p).length_le
    simp only [List.length_cons] at hlen
    omega
  · simpa using hc

theorem takeUntil_eq_self (sep : Nat) (l : PyStr) (h : sep ∉ l) :
    takeUntil sep l = l := by
  unfold takeUntil
  refine List.takeWhile_eq_self_iff.mpr ?_
  intro a ha
  simp only [decide_eq_true_eq]
  intro hcontra
  subst hcontra
  exact h ha

theorem mem_takeUntil_ne (sep x : Nat) (l : PyStr) (h : x ∈ takeUntil sep l) :
    x ∈ l ∧ x ≠ sep := by
  refine ⟨( List.takeWhile_prefix _).subset h, ?_⟩
  have hp := List.mem_takeWhile_imp h
  simpa using hp

theorem containsSub_subset (n l : PyStr) (h : containsSub n l = true) :
    ∀ c ∈ n, c ∈ l := by
  induction l with
  | nil =>
    unfold containsSub at h
    rw [List.isEmpty_iff] at h
    subst h
    intro c hc
    cases hc
  | cons a t ih =>
    intro c hc
    unfold containsSub at h
    rw [Bool.or_eq_true] at h
    rcases h with h | h
    · exact ( List.isPrefixOf_iff_prefix.mp h).subset hc
    · exact List.mem_cons_of_mem a (ih h c hc)

theorem mem_afterLast (sep x : Nat) (l : PyStr) (h : x ∈ afterLast sep l) : x ∈ l := by
  unfold afterLast at h
  rw [List.mem_reverse] at h
  have := ( List.takeWhile_prefix _).subset h
  rwa [List.mem_reverse] at this

theorem afterLast_length_le (sep : Nat) (l : PyStr) :
    (afterLast sep l).length ≤ l.length := by
  unfold afterLast
  rw [List.length_reverse]
  calc (l.reverse.takeWhile _).length ≤ l.reverse.length :=
        ( List.takeWhile_prefix _).length_le
    _ = l.length := List.length_reverse l

theorem pyUrlparse_netloc (url : PyStr) :
    (pyUrlparse url).2.1 = (splitNetloc (splitScheme (takeUntil 35 url)).2).1 := rfl

theorem mem_splitScheme_rest (u : PyStr) (x : Nat) (h : x ∈ (splitScheme u).2) :
    x ∈ u := by
  unfold splitScheme at h
  dsimp only at h
  split_ifs at h with hc
  · exact List.drop_subset _ u h
  · exact h

theorem splitScheme_rest_length_le (u : PyStr) : ((splitScheme u).2).length ≤ u.length := by
  unfold splitScheme
  dsimp only
  split_ifs with hc
  · rw [List.length_drop]
    omega
  · exact le_refl _

theorem mem_netloc (u : PyStr) (x : Nat) (h : x ∈ (pyUrlparse u).2.1) :
    x ∈ u ∧ x ≠ 47 := by
  rw [pyUrlparse_netloc] at h
  unfold splitNetloc at h
  dsimp only at h
  split_ifs at h with hsn
  · have hp := List.mem_takeWhile_imp h
    simp only [Bool.and_eq_true, decide_eq_true_eq] at hp
    have hx1 := ( List.takeWhile_prefix _).subset h
    have hx2 := List.drop_subset 2 _ hx1
    have hx3 := mem_splitScheme_rest _ x hx2
    exact ⟨(mem_takeUntil_ne 35 x u hx3).1, hp.1.1⟩
  · cases h

theorem netloc_length_le (u : PyStr) : ((pyUrlparse u).2.1).length ≤ u.length := by
  rw [pyUrlparse_netloc]
  have h1 : ((splitScheme (takeUntil 35 u)).2).length ≤ (takeUntil 35 u).length :=
    splitScheme_rest_length_le _
  have h2 : (takeUntil 35 u).length ≤ u.length := ( List.takeWhile_prefix _).length_le
  unfold splitNetloc
  dsimp only
  split_ifs with hsn
  · dsimp only
    have h3 : ((splitScheme (takeUntil 35 u)).2.drop 2).length ≤
        ((splitScheme (takeUntil 35 u)).2).length := by
      rw [List.length_drop]; omega
    have h4 : (((splitScheme (takeUntil 35 u)).2.drop 2).takeWhile
        (fun c => c ≠ 47 && c ≠ 63 && c ≠ 35)).length ≤
        ((splitScheme (takeUntil 35 u)).2.drop 2).length :=
      ( List.takeWhile_prefix _).length_le
    omega
  · simp

theorem pyHostnameOfNetloc_length_le (n : PyStr) :
    (pyHostnameOfNetloc n).length ≤ n.length := by
  unfold pyHostnameOfNetloc takeUntil
  dsimp only
  have hhp : (afterLast 64 n).length ≤ n.length := afterLast_length_le 64 n
  split_ifs with hbr
  · unfold pyLower
    rw [List.length_map]
    have h1 : ((((afterLast 64 n).dropWhile (fun c => c ≠ 91)).drop 1).takeWhile
        (fun c => c ≠ 93)).length ≤
        (((afterLast 64 n).dropWhile (fun c => c ≠ 91)).drop 1).length :=
      ( List.takeWhile_prefix _).length_le
    have h2 : (((afterLast 64 n).dropWhile (fun c => c ≠ 91)).drop 1).length ≤
        ((afterLast 64 n).dropWhile (fun c => c ≠ 91)).length := by
      rw [List.length_drop]; omega
    have h3 : ((afterLast 64 n).dropWhile (fun c => c ≠ 91)).length ≤
        (afterLast 64 n).length :=
      (List.dropWhile_suffix _).length_le
    omega
  · unfold pyLower
    rw [List.length_map]
    have h1 : ((afterLast 64 n).takeWhile (fun c => c ≠ 58)).length ≤
        (afterLast 64 n).length :=
      ( List.takeWhile_prefix _).length_le
    omega

theorem pyHostname_length_le (u : PyStr) : (pyHostname u).length ≤ u.length :=
  (pyHostnameOfNetloc_length_le _).trans (netloc_length_le u)

theorem not_mem_47_pyHostname (u : PyStr) : (47 : Nat) ∉ pyHostname u := by
  intro hmem
  unfold pyHostname pyHostnameOfNetloc at hmem
  dsimp only at hmem
  have hmem2 := mem_pyLower_low 47 (by norm_num) _ hmem
  split_ifs at hmem2 with hbr
  · have h1 := (mem_takeUntil_ne 93 47 _ hmem2).1
    have h2 := List.drop_subset 1 _ h1
    have h3 := (List.dropWhile_suffix _).subset h2
    have h4 := mem_afterLast 64 47 _ h3
    exact (mem_netloc u 47 h4).2 rfl
  · have h1 := (mem_takeUntil_ne 58 47 _ hmem2).1
    have h4 := mem_afterLast 64 47 _ h1
    exact (mem_netloc u 47 h4).2 rfl

theorem pyLower_length (l : PyStr) : (pyLower l).length = l.length :=
  List.length_map _ _

theorem ne_nil_isEmpty_false (l : PyStr) (h : l ≠ []) : l.isEmpty = false := by
  cases l
  · exact absurd rfl h
  · rfl

theorem normalize_length_le (s : PyStr) :
    (normalize_domain s).length ≤ (pyStrip s).length := by
  have hA : (pyLower (pyStrip (pyHostname (pyLower (pyStrip s))))).length ≤
      (pyStrip s).length := by
    rw [pyLower_length]
    calc (pyStrip (pyHostname (pyLower (pyStrip s)))).length
        ≤ (pyHostname (pyLower (pyStrip s))).length := pyStrip_length_le _
      _ ≤ (pyLower (pyStrip s)).length := pyHostname_length_le _
      _ = (pyStrip s).length := pyLower_length _
  have hB : (pyLower (pyStrip (takeUntil 58 (pyLower (pyStrip s))))).length ≤
      (pyStrip s).length := by
    rw [pyLower_length]
    calc (pyStrip (takeUntil 58 (pyLower (pyStrip s)))).length
        ≤ (takeUntil 58 (pyLower (pyStrip s))).length := pyStrip_length_le _
      _ ≤ (pyLower (pyStrip s)).length := ( List.takeWhile_prefix _).length_le
      _ = (pyStrip s).length := pyLower_length _
  unfold normalize_domain
  dsimp only
  split_ifs
  · simp
  · rw [List.length_drop]; omega
  · exact hA
  · rw [List.length_drop]; omega
  · exact hB

theorem pyLower_normalize (s : PyStr) :
    pyLower (normalize_domain s) = normalize_domain s := by
  unfold normalize_domain
  dsimp only
  split_ifs
  · rfl
  · rw [pyLower_drop, pyLower_idem]
  · exact pyLower_idem _
  · rw [pyLower_drop, pyLower_idem]
  · exact pyLower_idem _

theorem normalize_domain_eq_of (v : PyStr) (hs : pyStrip v = v) (hl : pyLower v = v)
    (hnev : v ≠ []) :
    normalize_domain v =
      (if pyStartsWith (lit "www.")
          (if containsSub (lit "://") v then pyLower (pyStrip (pyHostname v))
           else pyLower (pyStrip (takeUntil 58 v))) then
        (if containsSub (lit "://") v then pyLower (pyStrip (pyHostname v))
         else pyLower (pyStrip (takeUntil 58 v))).drop 4
       else
        (if containsSub (lit "://") v then pyLower (pyStrip (pyHostname v))
         else pyLower (pyStrip (takeUntil 58 v)))) := by
  unfold normalize_domain
  dsimp only
  rw [hs, hl, ne_nil_isEmpty_false v hnev]
  rfl

theorem normalize_domain_eq_nocolon (v : PyStr) (hs : pyStrip v = v)
    (hl : pyLower v = v) (hnev : v ≠ []) (hcol : (58 : Nat) ∉ v) :
    normalize_domain v = if pyStartsWith (lit "www.") v then v.drop 4 else v := by
  have hc : containsSub (lit "://") v = false := by
    cases hcs : containsSub (lit "://") v
    · rfl
    · exact absurd (containsSub_subset _ _ hcs 58 (by decide)) hcol
  rw [normalize_domain_eq_of v hs hl hnev, hc]
  simp only [Bool.false_eq_true, if_false]
  rw [takeUntil_eq_self 58 v hcol, hs, hl]

theorem normalize_fixed_facts (h : PyStr) (hne : h ≠ [])
    (hfix : normalize_domain h = h) :
    pyLower h = h ∧ pyStrip h = h ∧ (58 : Nat) ∉ h ∧
      pyStartsWith (lit "www.") h = false := by
  have hlow : pyLower h = h := by
    conv_lhs => rw [← hfix]
    rw [pyLower_normalize, hfix]
  have hstr : pyStrip h = h := by
    have h1 := normalize_length_le h
    rw [hfix] at h1
    have h2 := pyStrip_length_le h
    exact ((pyStrip_part h).eq_of_length (le_antisymm h2 h1))
  have hcol : (58 : Nat) ∉ h := by
    have heq := normalize_domain_eq_of h hstr hlow hne
    rw [hfix] at heq
    by_cases hc : containsSub (lit "://") h = true
    · exfalso
      rw [hc] at heq
      simp only [if_true] at heq
      have h47 : (47 : Nat) ∈ h := containsSub_subset _ _ hc 47 (by decide)
      have hmem : (47 : Nat) ∈ pyLower (pyStrip (pyHostname h)) := by
        by_cases hw : pyStartsWith (lit "www.") (pyLower (pyStrip (pyHostname h))) = true
        · rw [if_pos hw] at heq
          conv at h47 => rw [heq]
          exact List.drop_subset 4 _ h47
        · rw [if_neg hw] at heq
          conv at h47 => rw [heq]
          exact h47
      exact not_mem_47_pyHostname h
        (mem_pyStrip _ _ (mem_pyLower_low 47 (by norm_num) _ hmem))
    · intro h58
      have hc' : containsSub (lit "://") h = false := by simpa using hc
      rw [hc'] at heq
      simp only [Bool.false_eq_true, if_false] at heq
      have hmem : (58 : Nat) ∈ pyLower (pyStrip (takeUntil 58 h)) := by
        by_cases hw : pyStartsWith (lit "www.")
            (pyLower (pyStrip (takeUntil 58 h))) = true
        · rw [if_pos hw] at heq
          conv at h58 => rw [heq]
          exact List.drop_subset 4 _ h58
        · rw [if_neg hw] at heq
          conv at h58 => rw [heq]
          exact h58
      have := mem_pyStrip _ _ (mem_pyLower_low 58 (by norm_num) _ hmem)
      exact (mem_takeUntil_ne 58 58 h this).2 rfl
  have hwww : pyStartsWith (lit "www.") h = false := by
    have heq := normalize_domain_eq_nocolon h hstr hlow hne hcol
    rw [hfix] at heq
    by_cases hw : pyStartsWith (lit "www.") h = true
    · exfalso
      rw [if_pos hw] at heq
      have hlen := congrArg List.length heq
      rw [List.length_drop] at hlen
      unfold pyStartsWith at hw
      have hpre := ( List.isPrefixOf_iff_prefix.mp hw).length_le
      have hlit : (lit "www.").length = 4 := by decide
      have hpos : h.length ≠ 0 := by
        cases h
        · exact absurd rfl hne
        · simp
      omega
    · simpa using hw
  exact ⟨hlow, hstr, hcol, hwww⟩

theorem lit_www : lit "www." = [119, 119, 119, 46] := by decide

theorem pyStrip_www_append (h : PyStr) (hne : h ≠ []) (hstr : pyStrip h = h) :
    pyStrip (lit "www." ++ h) = lit "www." ++ h := by
  obtain ⟨hl, hr⟩ := pyStrip_eq_self_parts h hstr
  have hh : List.dropWhile pyIsSpace h.reverse = h.reverse := by
    have := congrArg List.reverse hr
    unfold pyRstrip at this
    rwa [List.reverse_reverse] at this
  unfold pyStrip
  have h1 : pyLstrip (lit "www." ++ h) = lit "www." ++ h := by
    rw [lit_www]
    unfold pyLstrip
    rw [List.cons_append, List.dropWhile_cons]
    norm_num [pyIsSpace]
  rw [h1]
  unfold pyRstrip
  rw [List.reverse_append]
  cases hrev : h.reverse with
  | nil =>
    exfalso
    apply hne
    have := congrArg List.reverse hrev
    rwa [List.reverse_reverse] at this
  | cons c t =>
    have hc : pyIsSpace c = false := by
      apply dropWhile_eq_self_head pyIsSpace c t
      rw [← hrev]
      exact hh
    rw [List.cons_append]
    rw [List.dropWhile_cons]
    rw [hc]
    simp only [Bool.false_eq_true, if_false]
    rw [← List.cons_append]
    rw [← hrev]
    rw [List.reverse_append, List.reverse_reverse, List.reverse_reverse]

theorem pyLower_www_append (h : PyStr) (hlow : pyLower h = h) :
    pyLower (lit "www." ++ h) = lit "www." ++ h := by
  unfold pyLower
  rw [List.map_append]
  have h1 : (lit "www.").map pyLowerChar = lit "www." := by decide
  rw [h1]
  unfold pyLower at hlow
  rw [hlow]

theorem normalize_www_append (h : PyStr) (hne : h ≠ []) (hlow : pyLower h = h)
    (hstr : pyStrip h = h) (hcol : (58 : Nat) ∉ h) :
    normalize_domain (lit "www." ++ h) = h := by
  have hne2 : lit "www." ++ h ≠ [] := by
    rw [lit_www]
    simp
  have hcol2 : (58 : Nat) ∉ lit "www." ++ h := by
    rw [List.mem_append]
    rintro (hm | hm)
    · revert hm
      decide
    · exact hcol hm
  rw [normalize_domain_eq_nocolon (lit "www." ++ h)
    (pyStrip_www_append h hne hstr) (pyLower_www_append h hlow) hne2 hcol2]
  have hsw : pyStartsWith (lit "www.") (lit "www." ++ h) = true := by
    unfold pyStartsWith
    rw [ List.isPrefixOf_iff_prefix]
    exact List.prefix_append _ _
  rw [if_pos hsw, lit_www]
  rfl

/-- C7 counterexample: `normalize_domain` strips only one `www.` layer, so
it is not idempotent: normalising `www.www.example.com` gives
`www.example.com`, and normalising again strips further. -/
theorem normalize_domain_not_idempotent :
    normalize_domain (normalize_domain (lit "www.www.example.com")) ≠
      normalize_domain (lit "www.www.example.com") := by
  decide

/-- C7 (amended): `normalize_domain` is not total: when the normalized
input contains `://` and the netloc extracted by `urlparse` has mismatched
square brackets (e.g. input `a://[b`), `urlparse` raises
`ValueError("Invalid IPv6 URL")` and that exception propagates — this is
exactly when `normalize_domainE` returns the error, and on every other
input it returns `normalize_domain`'s value.  That value is always
lower-cased, empty or whitespace-only input yields the empty string, and
the function is idempotent on every value that is trimmed, colon-free and
not itself `www.`-prefixed — which covers every well-formed bare hostname —
but not in general, because only one leading `www.` is stripped per
application. -/
theorem normalize_domain_spec (s y : PyStr) :
    (normalize_domainE s = PyResult.error (lit "Invalid IPv6 URL") ∨
      normalize_domainE s = PyResult.ok (normalize_domain s)) ∧
    (normalize_domainE s = PyResult.error (lit "Invalid IPv6 URL") ↔
      ((pyLower (pyStrip s)).isEmpty = false ∧
        containsSub (lit "://") (pyLower (pyStrip s)) = true ∧
        urlparseRaises (pyLower (pyStrip s)) = true)) ∧
    pyLower (normalize_domain s) = normalize_domain s ∧
    (pyStrip s = [] → normalize_domainE s = PyResult.ok []) ∧
    (pyLower y = y → pyStrip y = y → (58 : Nat) ∉ y →
      pyStartsWith (lit "www.") y = false →
      normalize_domainE y = PyResult.ok y) := by
  have hdico : ∀ (v : PyStr),
      (normalize_domainE v = PyResult.error (lit "Invalid IPv6 URL") ↔
        ((pyLower (pyStrip v)).isEmpty = false ∧
          containsSub (lit "://") (pyLower (pyStrip v)) = true ∧
          urlparseRaises (pyLower (pyStrip v)) = true)) ∧
      (normalize_domainE v = PyResult.error (lit "Invalid IPv6 URL") ∨
        normalize_domainE v = PyResult.ok (normalize_domain v)) := by
    intro v
    unfold normalize_domainE normalize_domain pyUrlparseE pyHostname
    dsimp only
    by_cases h1 : (pyLower (pyStrip v)).isEmpty = true
    · rw [if_pos h1, if_pos h1]
      exact ⟨by simp [h1], Or.inr rfl⟩
    · rw [if_neg h1, if_neg h1]
      by_cases h2 : containsSub (lit "://") (pyLower (pyStrip v)) = true
      · rw [if_pos h2, if_pos h2]
        by_cases h3 : urlparseRaises (pyLower (pyStrip v)) = true
        · rw [if_pos h3]
          dsimp only
          refine ⟨⟨fun _ => ⟨by simpa using h1, h2, h3⟩, fun _ => rfl⟩, Or.inl rfl⟩
        · rw [if_neg h3]
          dsimp only
          refine ⟨⟨fun hcontra => ?_, fun hconds => absurd hconds.2.2 h3⟩, Or.inr rfl⟩
          simp at hcontra
      · rw [if_neg h2, if_neg h2]
        refine ⟨⟨fun hcontra => ?_, fun hconds => absurd hconds.2.1 h2⟩, Or.inr rfl⟩
        simp at hcontra
  refine ⟨(hdico s).2, (hdico s).1, pyLower_normalize s, ?_, ?_⟩
  · intro hs
    unfold normalize_domainE
    dsimp only
    rw [hs]
    rfl
  · intro hly hsy hcy hwy
    by_cases hny : y = []
    · subst hny
      rfl
    · have hc : containsSub (lit "://") y = false := by
        cases hcs : containsSub (lit "://") y
        · rfl
        · exact absurd (containsSub_subset _ _ hcs 58 (by decide)) hcy
      unfold normalize_domainE
      dsimp only
      rw [hsy, hly, ne_nil_isEmpty_false y hny]
      simp only [Bool.false_eq_true, if_false, hc]
      rw [takeUntil_eq_self 58 y hcy, hsy, hly, if_neg]
      simp [hwy]

/-- Witness for C7's amended theorem: the raise fires on `a://[b`
(mismatched bracket in the netloc), and a concrete well-formed hostname is
returned unchanged without raising. -/
theorem normalize_domain_spec_witness :
    ((pyLower (pyStrip (lit "a://[b"))).isEmpty = false ∧
      containsSub (lit "://") (pyLower (pyStrip (lit "a://[b"))) = true ∧
      urlparseRaises (pyLower (pyStrip (lit "a://[b"))) = true) ∧
    normalize_domainE (lit "a://[b") = PyResult.error (lit "Invalid IPv6 URL") ∧
    pyLower (lit "example.com") = lit "example.com" ∧
    pyStrip (lit "example.com") = lit "example.com" ∧
    (58 : Nat) ∉ lit "example.com" ∧
    pyStartsWith (lit "www.") (lit "example.com") = false ∧
    normalize_domainE (lit "example.com") = PyResult.ok (lit "example.com") :=
  ⟨by decide,
   (normalize_domain_spec (lit "a://[b") (lit "x")).2.1.mpr (by decide),
   by decide, by decide, by decide, by decide,
   (normalize_domain_spec (lit "x") (lit "example.com")).2.2.2.2
     (by decide) (by decide) (by decide) (by decide)⟩

/-- C8: for a host `h` in normal form (non-empty and a fixed point of the
Domain Normalizer), `variants(h)` is exactly the two-element set
`{h, "www." + h}` and both elements normalize back to `h`. -/
theorem domain_variants_spec (h : PyStr) (hne : h ≠ [])
    (hfix : normalize_domain h = h) :
    domain_variants h = {h, lit "www." ++ h} ∧
    (domain_variants h).card = 2 ∧
    (∀ x ∈ domain_variants h, normalize_domain x = h) := by
  obtain ⟨hlow, hstr, hcol, -⟩ := normalize_fixed_facts h hne hfix
  have hvar : domain_variants h = {h, lit "www." ++ h} := by
    unfold domain_variants
    dsimp only
    rw [hfix, ne_nil_isEmpty_false h hne]
    rfl
  have hne2 : h ≠ lit "www." ++ h := by
    intro hcontra
    have hlen := congrArg List.length hcontra
    rw [List.length_append] at hlen
    have : (lit "www.").length = 4 := by decide
    omega
  refine ⟨hvar, ?_, ?_⟩
  · rw [hvar]
    exact Finset.card_pair hne2
  · intro x hx
    rw [hvar] at hx
    simp only [Finset.mem_insert, Finset.mem_singleton] at hx
    rcases hx with rfl | rfl
    · exact hfix
    · exact normalize_www_append h hne hlow hstr hcol

/-- Witness for C8 at the host `example.com`. -/
theorem domain_variants_spec_witness :
    (lit "example.com" ≠ []) ∧
    normalize_domain (lit "example.com") = lit "example.com" ∧
    (domain_variants (lit "example.com")).card = 2 :=
  ⟨by decide, by decide,
    (domain_variants_spec (lit "example.com") (by decide) (by decide)).2.1⟩

end Tesis
